import Mathlib

/-!
Parcel store over a relational table

A shallow embedding of `parcel.go`: the six operations of `ParcelStore`
(`Add`, `Get`, `GetByClient`, `SetStatus`, `SetAddress`, `Delete`) and the
helper `exists`, written as state-passing functions over a model of the
database handle.

The database handle is a collaborator of the store.  It is modelled as

* a table `parcel(number INTEGER PRIMARY KEY AUTOINCREMENT, client, status,
  address, created_at)`: a list of rows plus the AUTOINCREMENT counter the
  engine keeps for the table;
* the log of the statements sent through the handle, in order.

The seven statements of `parcel.go` are the constructors of `ExecStmt` and
`QueryStmt`; their meaning is the one SQL gives them.  The engine is
healthy: a statement fails only for a reason the table state decides (the
rowid space is exhausted on INSERT).  Go's `int` is the 64-bit one.
-/

namespace Tracker

/-- Modelled from the spec: the `Parcel` struct is declared outside
`parcel.go`; its five fields are the ones of the data model, with the names
and types `parcel.go` and its test use. -/
structure Parcel where
  Number : Int
  Client : Int
  Status : String
  Address : String
  CreatedAt : String
deriving DecidableEq, Repr

/-- Modelled from the spec: the constant `ParcelStatusRegistered` is declared
outside `parcel.go`; the spec names the status `registered`. -/
def ParcelStatusRegistered : String := "registered"

/-- Modelled from the spec: the constant `ParcelStatusSent` is declared
outside `parcel.go`; the spec names the status `sent`. -/
def ParcelStatusSent : String := "sent"

/-- The errors an operation can return: `sql.ErrNoRows`, the engine's
"database is full" on INSERT, and a failed `Scan`. -/
inductive SqlError where
  | ErrNoRows
  | Full
  | ScanFailed
deriving DecidableEq, Repr

/-- A column value of a result row. -/
inductive Value where
  | integer (i : Int)
  | text (s : String)
deriving DecidableEq, Repr

/-- The largest rowid of the engine, `2^63 - 1`. -/
def MAX_ROWID : Int := 9223372036854775807

/-- The conversion `int(id)` of an `int64` to Go's `int` (64 bits, two's
complement wrap-around). -/
def goInt (x : Int) : Int := (x + 2 ^ 63) % 2 ^ 64 - 2 ^ 63

/-- The table `parcel`: its rows and the AUTOINCREMENT counter (the largest
rowid the engine has handed out for the table, `0` when none). -/
structure Table where
  rows : List Parcel
  seq : Int
deriving DecidableEq, Repr

/-- The states of the table the engine admits: `number` is a key (PRIMARY
KEY), and the counter is a non-negative rowid. -/
def Table.wf (t : Table) : Prop :=
  (t.rows.map Parcel.Number).Nodup ∧ 0 ≤ t.seq ∧ t.seq ≤ MAX_ROWID

instance (t : Table) : Decidable t.wf := by
  unfold Table.wf; exact inferInstance

/-- The largest `number` among the rows, `none` for the empty table. -/
def lastRowid : List Parcel → Option Int
  | [] => none
  | r :: rs =>
    match lastRowid rs with
    | none => some r.Number
    | some m => some (max r.Number m)

/-- The rowid an INSERT without an explicit `number` gets under
AUTOINCREMENT: one more than the largest rowid in the table (1 for the empty
table), raised to one more than the counter; "full" when the largest rowid
or the counter is already `MAX_ROWID`. -/
def Table.newRowid (t : Table) : Except SqlError Int :=
  let v : Int × Bool :=
    match lastRowid t.rows with
    | none => (1, false)
    | some k => if k ≥ MAX_ROWID then (k, true) else (k + 1, false)
  if t.seq = MAX_ROWID ∨ v.2 = true then .error SqlError.Full
  else if v.1 < t.seq + 1 then .ok (t.seq + 1)
  else .ok v.1

/-- The statement `INSERT INTO parcel (client, status, address, created_at)
VALUES (?, ?, ?, ?)`: the new row gets a fresh rowid as its `number`; the counter moves to it. -/
def Table.insert (t : Table) (client : Int) (status address createdAt : String) :
    Except SqlError (Int × Table) :=
  match t.newRowid with
  | .error e => .error e
  | .ok v => .ok (v, { rows := t.rows ++ [⟨v, client, status, address, createdAt⟩], seq := v })

/-- The statement `UPDATE parcel SET ... WHERE ...`: every row the condition holds of is
replaced by its image; the count of those rows is the number affected. -/
def Table.update (t : Table) (set : Parcel → Parcel) (cond : Parcel → Bool) : Int × Table :=
  (((t.rows.filter cond).length : Int),
   { t with rows := t.rows.map (fun r => if cond r then set r else r) })

/-- The statement `DELETE FROM parcel WHERE ...`: every row the condition holds of is
removed; the count of those rows is the number affected. -/
def Table.delete (t : Table) (cond : Parcel → Bool) : Int × Table :=
  (((t.rows.filter cond).length : Int),
   { t with rows := t.rows.filter (fun r => !cond r) })

/-- The statement `SELECT ... FROM parcel WHERE ...`: the rows the condition holds of. -/
def Table.select (t : Table) (cond : Parcel → Bool) : List Parcel :=
  t.rows.filter cond

/-- The clause `ORDER BY number`: the rows in ascending order of `Number`. -/
def orderByNumber (l : List Parcel) : List Parcel :=
  l.insertionSort (fun a b => a.Number ≤ b.Number)

/-- The column list `number, client, status, address, created_at` of a row. -/
def Parcel.columns (p : Parcel) : List Value :=
  [.integer p.Number, .integer p.Client, .text p.Status, .text p.Address, .text p.CreatedAt]

/-- The statements `parcel.go` passes to `db.Exec`, with their arguments in the
order of the placeholders. -/
inductive ExecStmt where
  /-- The statement `INSERT INTO parcel (client, status, address, created_at) VALUES (?, ?, ?, ?)` -/
  | insertParcel (client : Int) (status address createdAt : String)
  /-- The statement `UPDATE parcel SET status = ? WHERE number = ?` -/
  | updateStatus (status : String) (number : Int)
  /-- The statement `UPDATE parcel SET address = ? WHERE number = ? AND status = ?` -/
  | updateAddress (address : String) (number : Int) (status : String)
  /-- The statement `DELETE FROM parcel WHERE number = ? AND status = ?` -/
  | deleteParcel (number : Int) (status : String)
deriving DecidableEq, Repr

/-- The statements `parcel.go` passes to `db.QueryRow` and `db.Query`. -/
inductive QueryStmt where
  /-- The statement `SELECT number, client, status, address, created_at FROM parcel WHERE number = ?` -/
  | selectByNumber (number : Int)
  /-- The statement `SELECT number, client, status, address, created_at FROM parcel WHERE client = ?
  ORDER BY number` -/
  | selectByClient (client : Int)
  /-- The statement `SELECT 1 FROM parcel WHERE number = ?` -/
  | selectOne (number : Int)
deriving DecidableEq, Repr

/-- A statement sent to the database. -/
inductive Stmt where
  | exec (q : ExecStmt)
  | query (q : QueryStmt)
deriving DecidableEq, Repr

/-- The value `sql.Result` of an `Exec`. -/
structure Result where
  lastInsertId : Int
  rowsAffected : Int
deriving DecidableEq, Repr

/-- The call `res.LastInsertId()`. -/
def Result.LastInsertId (res : Result) : Except SqlError Int := .ok res.lastInsertId

/-- The call `res.RowsAffected()`. -/
def Result.RowsAffected (res : Result) : Except SqlError Int := .ok res.rowsAffected

/-- The database handle `*sql.DB`: the table behind it and the statements
sent through it so far, oldest first. -/
structure DB where
  table : Table
  sent : List Stmt
deriving DecidableEq, Repr

/-- What the engine does with an `Exec` statement on a table.  The store reads
`LastInsertId` after the INSERT only; for the other statements the field is
left at `0`. -/
def Table.exec (t : Table) : ExecStmt → Except SqlError (Result × Table)
  | .insertParcel client status address createdAt =>
    match t.insert client status address createdAt with
    | .error e => .error e
    | .ok (id, t1) => .ok (⟨id, 1⟩, t1)
  | .updateStatus status number =>
    let r := t.update (fun p => { p with Status := status }) (fun p => p.Number == number)
    .ok (⟨0, r.1⟩, r.2)
  | .updateAddress address number status =>
    let r := t.update (fun p => { p with Address := address })
      (fun p => p.Number == number && p.Status == status)
    .ok (⟨0, r.1⟩, r.2)
  | .deleteParcel number status =>
    let r := t.delete (fun p => p.Number == number && p.Status == status)
    .ok (⟨0, r.1⟩, r.2)

/-- The result rows of a query on a table. -/
def Table.query (t : Table) : QueryStmt → List (List Value)
  | .selectByNumber number => (t.select (fun p => p.Number == number)).map Parcel.columns
  | .selectByClient client =>
    (orderByNumber (t.select (fun p => p.Client == client))).map Parcel.columns
  | .selectOne number => (t.select (fun p => p.Number == number)).map (fun _ => [.integer 1])

/-- The call `db.Exec(stmt, args...)`: the statement is sent; a failed statement leaves
the table as it was. -/
def DB.Exec (db : DB) (q : ExecStmt) : Except SqlError Result × DB :=
  match db.table.exec q with
  | .error e => (.error e, { db with sent := db.sent ++ [.exec q] })
  | .ok (res, t1) => (.ok res, { table := t1, sent := db.sent ++ [.exec q] })

/-- The call `db.Query(stmt, args...)`: the statement is sent; the result rows. -/
def DB.Query (db : DB) (q : QueryStmt) : Except SqlError (List (List Value)) × DB :=
  (.ok (db.table.query q), { db with sent := db.sent ++ [.query q] })

/-- The call `db.QueryRow(stmt, args...)`: the statement is sent; the first result row,
if any. -/
def DB.QueryRow (db : DB) (q : QueryStmt) : Option (List Value) × DB :=
  ((db.table.query q).head?, { db with sent := db.sent ++ [.query q] })

/-- The call `rows.Scan(&p.Number, &p.Client, &p.Status, &p.Address, &p.CreatedAt)` on one
result row: five columns, two INTEGER then three TEXT, as the two SELECTs of
parcels produce them. -/
def scanParcel : List Value → Except SqlError Parcel
  | [.integer number, .integer client, .text status, .text address, .text createdAt] =>
    .ok ⟨number, client, status, address, createdAt⟩
  | _ => .error SqlError.ScanFailed

/-- The call `row.Scan(...)` of a `QueryRow` into a parcel: `sql.ErrNoRows` when the
query gave no row. -/
def rowScanParcel : Option (List Value) → Except SqlError Parcel
  | none => .error SqlError.ErrNoRows
  | some cols => scanParcel cols

/-- The call `row.Scan(&one)` of a `QueryRow` into an `int`. -/
def rowScanInt : Option (List Value) → Except SqlError Int
  | none => .error SqlError.ErrNoRows
  | some [.integer i] => .ok i
  | some _ => .error SqlError.ScanFailed

/-- The store: it holds the database handle. -/
structure ParcelStore where
  db : DB
deriving DecidableEq, Repr

/-- The constructor `NewParcelStore`. -/
def NewParcelStore (db : DB) : ParcelStore := { db := db }

/-- The method `ParcelStore.Add`. -/
def ParcelStore.Add (s : ParcelStore) (p : Parcel) : Except SqlError Int × ParcelStore :=
  match s.db.Exec (.insertParcel p.Client p.Status p.Address p.CreatedAt) with
  | (.error err, db1) => (.error err, ⟨db1⟩)
  | (.ok res, db1) =>
    match res.LastInsertId with
    | .error err => (.error err, ⟨db1⟩)
    | .ok id => (.ok (goInt id), ⟨db1⟩)

/-- The method `ParcelStore.Get`. -/
def ParcelStore.Get (s : ParcelStore) (number : Int) : Except SqlError Parcel × ParcelStore :=
  match s.db.QueryRow (.selectByNumber number) with
  | (row, db1) =>
    match rowScanParcel row with
    | .error err => (.error err, ⟨db1⟩)
    | .ok p => (.ok p, ⟨db1⟩)

/-- The loop over `rows.Next()` of `GetByClient`: each row is scanned and
appended to `res`; the first failing `Scan` ends the loop with the error. -/
def scanLoop : List (List Value) → List Parcel → Except SqlError (List Parcel)
  | [], res => .ok res
  | cols :: rest, res =>
    match scanParcel cols with
    | .error err => .error err
    | .ok p => scanLoop rest (res ++ [p])

/-- The method `ParcelStore.GetByClient`. -/
def ParcelStore.GetByClient (s : ParcelStore) (client : Int) :
    Except SqlError (List Parcel) × ParcelStore :=
  match s.db.Query (.selectByClient client) with
  | (.error err, db1) => (.error err, ⟨db1⟩)
  | (.ok rows, db1) =>
    match scanLoop rows [] with
    | .error err => (.error err, ⟨db1⟩)
    | .ok res => (.ok res, ⟨db1⟩)

/-- The method `ParcelStore.SetStatus`. -/
def ParcelStore.SetStatus (s : ParcelStore) (number : Int) (status : String) :
    Except SqlError Unit × ParcelStore :=
  match s.db.Exec (.updateStatus status number) with
  | (.error err, db1) => (.error err, ⟨db1⟩)
  | (.ok res, db1) =>
    match res.RowsAffected with
    | .error err => (.error err, ⟨db1⟩)
    | .ok aff =>
      if aff = 0 then (.error SqlError.ErrNoRows, ⟨db1⟩)
      else (.ok (), ⟨db1⟩)

/-- The method `ParcelStore.exists`. -/
def ParcelStore.exists (s : ParcelStore) (number : Int) : Except SqlError Bool × ParcelStore :=
  match s.db.QueryRow (.selectOne number) with
  | (row, db1) =>
    match rowScanInt row with
    | .error SqlError.ErrNoRows => (.ok false, ⟨db1⟩)
    | .error err => (.error err, ⟨db1⟩)
    | .ok _ => (.ok true, ⟨db1⟩)

/-- The method `ParcelStore.SetAddress`. -/
def ParcelStore.SetAddress (s : ParcelStore) (number : Int) (address : String) :
    Except SqlError Unit × ParcelStore :=
  match s.db.Exec (.updateAddress address number ParcelStatusRegistered) with
  | (.error err, db1) => (.error err, ⟨db1⟩)
  | (.ok res, db1) =>
    match res.RowsAffected with
    | .error err => (.error err, ⟨db1⟩)
    | .ok aff =>
      if aff = 0 then
        match (ParcelStore.mk db1).exists number with
        | (.error err, s2) => (.error err, s2)
        | (.ok found, s2) =>
          if !found then (.error SqlError.ErrNoRows, s2)
          else (.ok (), s2)
      else (.ok (), ⟨db1⟩)

/-- The method `ParcelStore.Delete`. -/
def ParcelStore.Delete (s : ParcelStore) (number : Int) : Except SqlError Unit × ParcelStore :=
  match s.db.Exec (.deleteParcel number ParcelStatusRegistered) with
  | (.error err, db1) => (.error err, ⟨db1⟩)
  | (.ok res, db1) =>
    match res.RowsAffected with
    | .error err => (.error err, ⟨db1⟩)
    | .ok aff =>
      if aff = 0 then
        match (ParcelStore.mk db1).exists number with
        | (.error err, s2) => (.error err, s2)
        | (.ok found, s2) =>
          if !found then (.error SqlError.ErrNoRows, s2)
          else (.ok (), s2)
      else (.ok (), ⟨db1⟩)

/-- A call of one of the six operations, with its arguments. -/
inductive Op where
  | Add (p : Parcel)
  | Get (number : Int)
  | GetByClient (client : Int)
  | SetStatus (number : Int) (status : String)
  | SetAddress (number : Int) (address : String)
  | Delete (number : Int)
deriving DecidableEq, Repr

/-- The store after one call. -/
def ParcelStore.step (s : ParcelStore) : Op → ParcelStore
  | .Add p => (s.Add p).2
  | .Get number => (s.Get number).2
  | .GetByClient client => (s.GetByClient client).2
  | .SetStatus number status => (s.SetStatus number status).2
  | .SetAddress number address => (s.SetAddress number address).2
  | .Delete number => (s.Delete number).2

/-- The statements one call sends: what the log of the handle gains. -/
def ParcelStore.sentBy (s : ParcelStore) (op : Op) : List Stmt :=
  (s.step op).db.sent.drop s.db.sent.length

/-- The number of rows an `Exec` statement affects on a table (`0` for a
statement that fails). -/
def Table.affected (t : Table) (q : ExecStmt) : Int :=
  match t.exec q with
  | .error _ => 0
  | .ok (res, _) => res.rowsAffected

/-- A table with three parcels of two clients, one of them already sent. -/
def exampleStore : ParcelStore :=
  ⟨⟨⟨[⟨1, 7, "registered", "a", "t1"⟩, ⟨3, 7, "sent", "b", "t2"⟩,
      ⟨2, 8, "registered", "c", "t3"⟩], 3⟩, []⟩⟩

/-- The parcel of the test file: `getTestParcel`, at a fixed time. -/
def exampleParcel : Parcel :=
  ⟨0, 1000, ParcelStatusRegistered, "test", "2024-01-01T00:00:00Z"⟩

instance : IsTotal Parcel (fun a b => a.Number ≤ b.Number) :=
  ⟨fun a b => le_total a.Number b.Number⟩

instance : IsTrans Parcel (fun a b => a.Number ≤ b.Number) :=
  ⟨fun _ _ _ h1 h2 => le_trans h1 h2⟩

/-! ## The engine -/

theorem scanParcel_columns (p : Parcel) : scanParcel p.columns = .ok p := rfl

theorem scanLoop_columns (l : List Parcel) (acc : List Parcel) :
    scanLoop (l.map Parcel.columns) acc = .ok (acc ++ l) := by
  induction l generalizing acc with
  | nil => simp [scanLoop]
  | cons p l ih => simp [scanLoop, scanParcel_columns, ih]

theorem filter_number_of_forall_ne (rows : List Parcel) (n : Int)
    (h : ∀ r ∈ rows, r.Number ≠ n) : rows.filter (fun p => p.Number == n) = [] := by
  simp only [List.filter_eq_nil_iff]
  intro r hr
  simpa using h r hr

theorem filter_number_of_mem (rows : List Parcel) (r : Parcel)
    (hnd : (rows.map Parcel.Number).Nodup) (hr : r ∈ rows) :
    rows.filter (fun p => p.Number == r.Number) = [r] := by
  induction rows with
  | nil => simp at hr
  | cons x xs ih =>
    simp only [List.map_cons, List.nodup_cons, List.mem_map, not_exists, not_and] at hnd
    rcases List.mem_cons.1 hr with rfl | hmem
    · have : xs.filter (fun p => p.Number == r.Number) = [] :=
        filter_number_of_forall_ne xs r.Number (fun q hq => hnd.1 q hq)
      simp [List.filter_cons, this]
    · have hne : x.Number ≠ r.Number := fun e => hnd.1 r hmem e.symm
      simp [List.filter_cons, hne, ih hnd.2 hmem]

/-! ## `Get` -/

theorem Get_result (s : ParcelStore) (n : Int) :
    (s.Get n).1 = rowScanParcel
      (((s.db.table.rows.filter (fun p => p.Number == n)).map Parcel.columns).head?) := by
  simp only [ParcelStore.Get, DB.QueryRow, Table.query, Table.select]
  split <;> simp_all

theorem Get_table (s : ParcelStore) (n : Int) : (s.Get n).2.db.table = s.db.table := by
  simp only [ParcelStore.Get, DB.QueryRow]
  split <;> rfl

theorem Get_sent (s : ParcelStore) (n : Int) :
    (s.Get n).2.db.sent = s.db.sent ++ [.query (.selectByNumber n)] := by
  simp only [ParcelStore.Get, DB.QueryRow]
  split <;> rfl

theorem Get_of_forall_ne (s : ParcelStore) (n : Int)
    (h : ∀ r ∈ s.db.table.rows, r.Number ≠ n) : (s.Get n).1 = .error SqlError.ErrNoRows := by
  rw [Get_result, filter_number_of_forall_ne _ _ h]
  rfl

theorem Get_of_mem (s : ParcelStore) (r : Parcel)
    (hnd : (s.db.table.rows.map Parcel.Number).Nodup) (hr : r ∈ s.db.table.rows) :
    (s.Get r.Number).1 = .ok r := by
  rw [Get_result, filter_number_of_mem _ _ hnd hr]
  rfl

/-! ## `exists` -/

theorem rowScanInt_selectOne (rows : List Parcel) (n : Int) :
    rowScanInt (((rows.filter (fun p => p.Number == n)).map
      (fun _ => [Value.integer 1])).head?) =
      if rows.any (fun p => p.Number == n) then .ok 1 else .error SqlError.ErrNoRows := by
  induction rows with
  | nil => simp [rowScanInt]
  | cons x xs ih =>
    by_cases hx : x.Number = n
    · simp [List.filter_cons, hx, rowScanInt]
    · simpa [List.filter_cons, hx] using ih

theorem exists_eq (s : ParcelStore) (n : Int) :
    s.exists n = (.ok (s.db.table.rows.any (fun p => p.Number == n)),
      ⟨⟨s.db.table, s.db.sent ++ [.query (.selectOne n)]⟩⟩) := by
  simp only [ParcelStore.exists, DB.QueryRow, Table.query, Table.select, rowScanInt_selectOne]
  cases h : s.db.table.rows.any (fun p => p.Number == n) <;> simp

/-! ## `SetStatus` -/

theorem filter_length_zero_iff (rows : List Parcel) (cond : Parcel → Bool) :
    ((rows.filter cond).length : Int) = 0 ↔ rows.any cond = false := by
  rw [Int.natCast_eq_zero, List.length_eq_zero, List.filter_eq_nil_iff]
  simp

theorem SetStatus_eq (s : ParcelStore) (n : Int) (st : String) :
    s.SetStatus n st =
      (if s.db.table.rows.any (fun p => p.Number == n) then .ok ()
        else .error SqlError.ErrNoRows,
       ⟨⟨⟨s.db.table.rows.map (fun r => if r.Number == n then { r with Status := st } else r),
          s.db.table.seq⟩, s.db.sent ++ [.exec (.updateStatus st n)]⟩⟩) := by
  simp only [ParcelStore.SetStatus, DB.Exec, Table.exec, Table.update, Result.RowsAffected,
    filter_length_zero_iff]
  cases h : s.db.table.rows.any (fun p => p.Number == n) <;> simp

/-! ## `SetAddress` and `Delete` -/

theorem any_number_map (rows : List Parcel) (f : Parcel → Parcel) (n : Int)
    (hf : ∀ r, (f r).Number = r.Number) :
    (rows.map f).any (fun p => p.Number == n) = rows.any (fun p => p.Number == n) := by
  induction rows with
  | nil => rfl
  | cons x xs ih => simp only [List.map_cons, List.any_cons, ih, hf]

theorem any_number_of_any_and (rows : List Parcel) (n : Int) (c : Parcel → Bool)
    (h : rows.any (fun p => p.Number == n && c p) = true) :
    rows.any (fun p => p.Number == n) = true := by
  rw [List.any_eq_true] at h ⊢
  obtain ⟨x, hx, hc⟩ := h
  exact ⟨x, hx, by simp only [Bool.and_eq_true] at hc; exact hc.1⟩

theorem SetAddress_eq (s : ParcelStore) (n : Int) (a : String) :
    s.SetAddress n a =
      (if s.db.table.rows.any (fun p => p.Number == n) then .ok ()
        else .error SqlError.ErrNoRows,
       ⟨⟨⟨s.db.table.rows.map (fun r =>
            if r.Number == n && r.Status == ParcelStatusRegistered
            then { r with Address := a } else r),
          s.db.table.seq⟩,
         s.db.sent ++
          (if s.db.table.rows.any (fun p => p.Number == n && p.Status == ParcelStatusRegistered)
           then [.exec (.updateAddress a n ParcelStatusRegistered)]
           else [.exec (.updateAddress a n ParcelStatusRegistered),
                 .query (.selectOne n)])⟩⟩) := by
  simp only [ParcelStore.SetAddress, DB.Exec, Table.exec, Table.update, Result.RowsAffected,
    filter_length_zero_iff, exists_eq]
  cases h : s.db.table.rows.any (fun p => p.Number == n && p.Status == ParcelStatusRegistered)
  · rw [any_number_map _ _ _ (by intro r; split <;> rfl)]
    cases h2 : s.db.table.rows.any (fun p => p.Number == n) <;> simp
  · simp [any_number_of_any_and _ _ _ h]

theorem any_number_filter_not (rows : List Parcel) (n : Int) (c : Parcel → Bool)
    (h : rows.any (fun p => p.Number == n && c p) = false) :
    (rows.filter (fun p => !(p.Number == n && c p))).any (fun p => p.Number == n) =
      rows.any (fun p => p.Number == n) := by
  have : rows.filter (fun p => !(p.Number == n && c p)) = rows := by
    rw [List.filter_eq_self]
    intro x hx
    have := (List.any_eq_false.1 h) x hx
    simp only [Bool.not_eq_true] at this
    simp [this]
  rw [this]

theorem Delete_eq (s : ParcelStore) (n : Int) :
    s.Delete n =
      (if s.db.table.rows.any (fun p => p.Number == n) then .ok ()
        else .error SqlError.ErrNoRows,
       ⟨⟨⟨s.db.table.rows.filter (fun r =>
            !(r.Number == n && r.Status == ParcelStatusRegistered)),
          s.db.table.seq⟩,
         s.db.sent ++
          (if s.db.table.rows.any (fun p => p.Number == n && p.Status == ParcelStatusRegistered)
           then [.exec (.deleteParcel n ParcelStatusRegistered)]
           else [.exec (.deleteParcel n ParcelStatusRegistered),
                 .query (.selectOne n)])⟩⟩) := by
  simp only [ParcelStore.Delete, DB.Exec, Table.exec, Table.delete, Result.RowsAffected,
    filter_length_zero_iff, exists_eq]
  cases h : s.db.table.rows.any (fun p => p.Number == n && p.Status == ParcelStatusRegistered)
  · rw [any_number_filter_not _ _ _ h]
    cases h2 : s.db.table.rows.any (fun p => p.Number == n) <;> simp
  · simp [any_number_of_any_and _ _ _ h]

/-! ## `GetByClient` -/

theorem GetByClient_eq (s : ParcelStore) (c : Int) :
    s.GetByClient c =
      (.ok (orderByNumber (s.db.table.rows.filter (fun p => p.Client == c))),
       ⟨⟨s.db.table, s.db.sent ++ [.query (.selectByClient c)]⟩⟩) := by
  simp [ParcelStore.GetByClient, DB.Query, Table.query, Table.select, scanLoop_columns]

/-! ## `Add` -/

theorem lastRowid_none (rows : List Parcel) (h : lastRowid rows = none) : rows = [] := by
  cases rows with
  | nil => rfl
  | cons x xs =>
    simp only [lastRowid] at h
    split at h <;> simp at h

theorem lastRowid_some (rows : List Parcel) (k : Int) (h : lastRowid rows = some k) :
    ∀ r ∈ rows, r.Number ≤ k := by
  induction rows generalizing k with
  | nil => simp
  | cons x xs ih =>
    simp only [lastRowid] at h
    intro r hr
    split at h
    · rename_i hn
      have hxs := lastRowid_none xs hn
      subst hxs
      simp only [Option.some.injEq] at h
      simp only [List.mem_singleton] at hr
      subst hr
      omega
    · rename_i m hm
      simp only [Option.some.injEq] at h
      rcases List.mem_cons.1 hr with rfl | hmem
      · have := le_max_left r.Number m
        omega
      · have h1 := ih m hm r hmem
        have := le_max_right x.Number m
        omega

theorem newRowid_ok (t : Table) (v : Int) (h0 : 0 ≤ t.seq) (h1 : t.seq ≤ MAX_ROWID)
    (h : t.newRowid = .ok v) :
    (∀ r ∈ t.rows, r.Number < v) ∧ 1 ≤ v ∧ v ≤ MAX_ROWID ∧ t.seq < v := by
  unfold Table.newRowid at h
  cases hl : lastRowid t.rows with
  | none =>
    have hnil := lastRowid_none _ hl
    simp only [hl] at h
    split at h
    · simp at h
    · rename_i hne
      simp only [Bool.false_eq_true, or_false] at hne
      split at h <;> simp only [Except.ok.injEq] at h <;> subst h <;> simp [hnil] <;> omega
  | some k =>
    have hle := lastRowid_some _ k hl
    simp only [hl] at h
    by_cases hk : k ≥ MAX_ROWID
    · simp [hk] at h
    · simp only [hk, ↓reduceIte, Bool.false_eq_true, or_false] at h
      split at h
      · simp at h
      · split at h <;> simp only [Except.ok.injEq] at h <;> subst h <;>
          refine ⟨fun r hr => ?_, ?_, ?_, ?_⟩ <;>
          first
            | exact lt_of_le_of_lt (hle r hr) (by omega)
            | omega

theorem goInt_of_rowid (v : Int) (h1 : 1 ≤ v) (h2 : v ≤ MAX_ROWID) : goInt v = v := by
  unfold goInt
  unfold MAX_ROWID at h2
  omega

theorem Add_eq (s : ParcelStore) (p : Parcel) :
    s.Add p =
      match s.db.table.newRowid with
      | .error e => (.error e, ⟨⟨s.db.table, s.db.sent ++
          [.exec (.insertParcel p.Client p.Status p.Address p.CreatedAt)]⟩⟩)
      | .ok v => (.ok (goInt v),
          ⟨⟨⟨s.db.table.rows ++ [⟨v, p.Client, p.Status, p.Address, p.CreatedAt⟩], v⟩,
            s.db.sent ++ [.exec (.insertParcel p.Client p.Status p.Address p.CreatedAt)]⟩⟩) := by
  simp only [ParcelStore.Add, DB.Exec, Table.exec, Table.insert, Result.LastInsertId]
  cases s.db.table.newRowid <;> rfl

/-! ## Rows under a key -/

theorem row_unique (rows : List Parcel) (hnd : (rows.map Parcel.Number).Nodup)
    (r q : Parcel) (hr : r ∈ rows) (hq : q ∈ rows) (h : q.Number = r.Number) : q = r :=
  List.inj_on_of_nodup_map hnd hq hr h

theorem any_number_of_mem (rows : List Parcel) (r : Parcel) (hr : r ∈ rows) :
    rows.any (fun p => p.Number == r.Number) = true := by
  rw [List.any_eq_true]
  exact ⟨r, hr, by simp⟩

theorem map_update_of_forall_false (rows : List Parcel) (g : Parcel → Parcel)
    (c : Parcel → Bool) (h : ∀ x ∈ rows, c x = false) :
    rows.map (fun r => if c r = true then g r else r) = rows := by
  conv_rhs => rw [← List.map_id rows]
  apply List.map_congr_left
  intro x hx
  simp [h x hx]

theorem map_number_update (rows : List Parcel) (g : Parcel → Parcel) (c : Parcel → Bool)
    (hg : ∀ x, (g x).Number = x.Number) :
    (rows.map (fun r => if c r = true then g r else r)).map Parcel.Number =
      rows.map Parcel.Number := by
  rw [List.map_map]
  apply List.map_congr_left
  intro x _
  simp only [Function.comp]
  split
  · exact hg x
  · rfl

theorem mem_update_other (rows : List Parcel) (g : Parcel → Parcel) (c : Parcel → Bool)
    (n : Int) (hg : ∀ x, (g x).Number = x.Number) (hc : ∀ x, c x = true → x.Number = n)
    (q : Parcel) (hq : q.Number ≠ n) :
    q ∈ rows.map (fun r => if c r = true then g r else r) ↔ q ∈ rows := by
  constructor
  · intro h
    obtain ⟨x, hx, hxq⟩ := List.mem_map.1 h
    by_cases hcx : c x = true
    · rw [if_pos hcx] at hxq
      exact absurd (by rw [← hxq, hg x, hc x hcx]) hq
    · rw [if_neg hcx] at hxq
      exact hxq ▸ hx
  · intro h
    refine List.mem_map.2 ⟨q, h, ?_⟩
    have : ¬ c q = true := fun hcq => hq (hc q hcq)
    rw [if_neg this]

theorem gate_false_of_row (rows : List Parcel) (hnd : (rows.map Parcel.Number).Nodup)
    (r : Parcel) (hr : r ∈ rows) (hs : r.Status ≠ ParcelStatusRegistered) :
    ∀ x ∈ rows, (x.Number == r.Number && x.Status == ParcelStatusRegistered) = false := by
  intro x hx
  by_cases hxn : x.Number = r.Number
  · have := row_unique rows hnd r x hr hx hxn
    subst this
    simp [hs]
  · simp [hxn]

/-! ## One call: the table stays well formed, gated rows stay -/

theorem append_nodup (rows : List Parcel) (x : Parcel)
    (hnd : (rows.map Parcel.Number).Nodup) (hlt : ∀ r ∈ rows, r.Number < x.Number) :
    ((rows ++ [x]).map Parcel.Number).Nodup := by
  rw [List.map_append, List.nodup_append]
  refine ⟨hnd, by simp, ?_⟩
  intro a ha hb
  simp only [List.map_cons, List.map_nil, List.mem_singleton] at hb
  obtain ⟨r, hr, rfl⟩ := List.mem_map.1 ha
  exact absurd hb (ne_of_lt (hlt r hr))

theorem filter_nodup (rows : List Parcel) (c : Parcel → Bool)
    (hnd : (rows.map Parcel.Number).Nodup) : ((rows.filter c).map Parcel.Number).Nodup :=
  hnd.sublist ((List.filter_sublist rows).map Parcel.Number)

theorem step_wf (s : ParcelStore) (op : Op) (hwf : s.db.table.wf) :
    (s.step op).db.table.wf := by
  cases op with
  | Add p =>
    simp only [ParcelStore.step, Add_eq]
    cases hv : s.db.table.newRowid with
    | error e => exact hwf
    | ok v =>
      obtain ⟨hlt, h1, h2, _⟩ := newRowid_ok _ v hwf.2.1 hwf.2.2 hv
      exact ⟨append_nodup _ _ hwf.1 hlt, by show 0 ≤ v; omega, h2⟩
  | Get n => simp only [ParcelStore.step, Get_table]; exact hwf
  | GetByClient c => simp only [ParcelStore.step, GetByClient_eq]; exact hwf
  | SetStatus n st =>
    simp only [ParcelStore.step, SetStatus_eq]
    have hnum := map_number_update s.db.table.rows (fun x => { x with Status := st })
      (fun x => x.Number == n) (fun _ => rfl)
    exact ⟨by show (List.map Parcel.Number (List.map _ _)).Nodup; rw [hnum]; exact hwf.1,
      hwf.2⟩
  | SetAddress n a =>
    simp only [ParcelStore.step, SetAddress_eq]
    have hnum := map_number_update s.db.table.rows (fun x => { x with Address := a })
      (fun x => x.Number == n && x.Status == ParcelStatusRegistered) (fun _ => rfl)
    exact ⟨by show (List.map Parcel.Number (List.map _ _)).Nodup; rw [hnum]; exact hwf.1,
      hwf.2⟩
  | Delete n =>
    simp only [ParcelStore.step, Delete_eq]
    exact ⟨filter_nodup _ _ hwf.1, hwf.2⟩

theorem step_keeps_gated (s : ParcelStore) (op : Op) (r : Parcel)
    (hr : r ∈ s.db.table.rows) (hs : r.Status ≠ ParcelStatusRegistered) :
    ∃ q ∈ (s.step op).db.table.rows, q.Number = r.Number ∧ q.Address = r.Address := by
  cases op with
  | Add p =>
    simp only [ParcelStore.step, Add_eq]
    cases hv : s.db.table.newRowid with
    | error e => exact ⟨r, hr, rfl, rfl⟩
    | ok v => exact ⟨r, List.mem_append_left _ hr, rfl, rfl⟩
  | Get n => simp only [ParcelStore.step, Get_table]; exact ⟨r, hr, rfl, rfl⟩
  | GetByClient c => simp only [ParcelStore.step, GetByClient_eq]; exact ⟨r, hr, rfl, rfl⟩
  | SetStatus n st =>
    simp only [ParcelStore.step, SetStatus_eq]
    refine ⟨_, List.mem_map.2 ⟨r, hr, rfl⟩, ?_, ?_⟩ <;> split <;> rfl
  | SetAddress n a =>
    simp only [ParcelStore.step, SetAddress_eq]
    refine ⟨r, List.mem_map.2 ⟨r, hr, ?_⟩, rfl, rfl⟩
    simp [hs]
  | Delete n =>
    simp only [ParcelStore.step, Delete_eq]
    refine ⟨r, List.mem_filter.2 ⟨hr, ?_⟩, rfl, rfl⟩
    simp [hs]

/-! ## Ordering by number -/

theorem orderByNumber_perm (l : List Parcel) : (orderByNumber l).Perm l :=
  List.perm_insertionSort _ l

theorem orderByNumber_strict (l : List Parcel) (hnd : (l.map Parcel.Number).Nodup) :
    (orderByNumber l).Pairwise (fun a b => a.Number < b.Number) := by
  have hs : (orderByNumber l).Pairwise (fun a b => a.Number ≤ b.Number) :=
    List.sorted_insertionSort _ l
  have hn : ((orderByNumber l).map Parcel.Number).Nodup :=
    (((orderByNumber_perm l).map Parcel.Number).nodup_iff).2 hnd
  have hne : (orderByNumber l).Pairwise (fun a b => a.Number ≠ b.Number) :=
    List.pairwise_map.1 hn
  exact (hs.and hne).imp (fun h => lt_of_le_of_ne h.1 h.2)

/-! ## The statements of one call -/

theorem affected_updateAddress (t : Table) (a : String) (n : Int) (st : String) :
    (t.affected (.updateAddress a n st) = 0) ↔
      t.rows.any (fun p => p.Number == n && p.Status == st) = false := by
  simp only [Table.affected, Table.exec, Table.update]
  exact filter_length_zero_iff _ _

theorem affected_deleteParcel (t : Table) (n : Int) (st : String) :
    (t.affected (.deleteParcel n st) = 0) ↔
      t.rows.any (fun p => p.Number == n && p.Status == st) = false := by
  simp only [Table.affected, Table.exec, Table.delete]
  exact filter_length_zero_iff _ _

theorem Add_sent (s : ParcelStore) (p : Parcel) :
    (s.Add p).2.db.sent =
      s.db.sent ++ [.exec (.insertParcel p.Client p.Status p.Address p.CreatedAt)] := by
  rw [Add_eq]
  cases s.db.table.newRowid <;> rfl

theorem SetAddress_sent (s : ParcelStore) (n : Int) (a : String) :
    (s.SetAddress n a).2.db.sent = s.db.sent ++
      (if s.db.table.affected (.updateAddress a n ParcelStatusRegistered) = 0
       then [.exec (.updateAddress a n ParcelStatusRegistered), .query (.selectOne n)]
       else [.exec (.updateAddress a n ParcelStatusRegistered)]) := by
  rw [SetAddress_eq]
  simp only [affected_updateAddress]
  cases s.db.table.rows.any (fun p => p.Number == n && p.Status == ParcelStatusRegistered) <;>
    simp

theorem Delete_sent (s : ParcelStore) (n : Int) :
    (s.Delete n).2.db.sent = s.db.sent ++
      (if s.db.table.affected (.deleteParcel n ParcelStatusRegistered) = 0
       then [.exec (.deleteParcel n ParcelStatusRegistered), .query (.selectOne n)]
       else [.exec (.deleteParcel n ParcelStatusRegistered)]) := by
  rw [Delete_eq]
  simp only [affected_deleteParcel]
  cases s.db.table.rows.any (fun p => p.Number == n && p.Status == ParcelStatusRegistered) <;>
    simp

theorem sentBy_of_append (s : ParcelStore) (op : Op) (l : List Stmt)
    (h : (s.step op).db.sent = s.db.sent ++ l) : s.sentBy op = l := by
  rw [ParcelStore.sentBy, h, List.drop_left]

/-! ## The claims -/

/-- C1: round trip.  In every table state, for every parcel `p` (whatever its
`Number`), if `Add p` succeeds and returns `N`, then `Get N` on the resulting
store succeeds and returns the parcel with `Number = N` and the `Client`,
`Status`, `Address` and `CreatedAt` of `p`. -/
theorem add_get_roundtrip (s s1 : ParcelStore) (p : Parcel) (N : Int)
    (hwf : s.db.table.wf) (hadd : s.Add p = (.ok N, s1)) :
    (s1.Get N).1 = .ok ⟨N, p.Client, p.Status, p.Address, p.CreatedAt⟩ := by
  rw [Add_eq] at hadd
  cases hv : s.db.table.newRowid with
  | error e => simp [hv] at hadd
  | ok v =>
    obtain ⟨hlt, h1, h2, _⟩ := newRowid_ok _ v hwf.2.1 hwf.2.2 hv
    simp only [hv, goInt_of_rowid v h1 h2, Prod.mk.injEq, Except.ok.injEq] at hadd
    obtain ⟨rfl, rfl⟩ := hadd
    rw [Get_result]
    have : s.db.table.rows.filter (fun q => q.Number == v) = [] :=
      filter_number_of_forall_ne _ _ (fun r hr => ne_of_lt (hlt r hr))
    simp [List.filter_append, this, List.filter_cons]
    rfl

theorem add_get_roundtrip_witness :
    exampleStore.db.table.wf ∧
    exampleStore.Add exampleParcel = (.ok 4, (exampleStore.Add exampleParcel).2) ∧
    ((exampleStore.Add exampleParcel).2.Get 4).1 =
      .ok ⟨4, 1000, "registered", "test", "2024-01-01T00:00:00Z"⟩ :=
  ⟨by decide, rfl, add_get_roundtrip exampleStore _ exampleParcel 4 (by decide) rfl⟩

/-- C9: a successful `Add p` returns a non-zero number `N` that no row of the
table had before the call; the table afterwards is the old one with exactly
one row appended, the row of `p` under the number `N`, so the row count grows
by one and every earlier row is still there unchanged; `number` is still a
key and the table is still a state the engine admits. -/
theorem add_fresh_number (s s1 : ParcelStore) (p : Parcel) (N : Int)
    (hwf : s.db.table.wf) (hadd : s.Add p = (.ok N, s1)) :
    N ≠ 0 ∧ (∀ r ∈ s.db.table.rows, r.Number ≠ N) ∧
    s1.db.table.rows =
      s.db.table.rows ++ [⟨N, p.Client, p.Status, p.Address, p.CreatedAt⟩] ∧
    s1.db.table.rows.length = s.db.table.rows.length + 1 ∧
    (∀ r ∈ s.db.table.rows, r ∈ s1.db.table.rows) ∧
    (s1.db.table.rows.map Parcel.Number).Nodup ∧ s1.db.table.wf := by
  rw [Add_eq] at hadd
  cases hv : s.db.table.newRowid with
  | error e => simp [hv] at hadd
  | ok v =>
    obtain ⟨hlt, h1, h2, _⟩ := newRowid_ok _ v hwf.2.1 hwf.2.2 hv
    simp only [hv, goInt_of_rowid v h1 h2, Prod.mk.injEq, Except.ok.injEq] at hadd
    obtain ⟨rfl, rfl⟩ := hadd
    have hnd : ((s.db.table.rows ++
        [(⟨v, p.Client, p.Status, p.Address, p.CreatedAt⟩ : Parcel)]).map
        Parcel.Number).Nodup := append_nodup _ _ hwf.1 hlt
    refine ⟨by omega, fun r hr => ne_of_lt (hlt r hr), rfl, by simp, ?_, hnd, hnd, ?_, h2⟩
    · intro r hr
      exact List.mem_append_left _ hr
    · show 0 ≤ v
      omega

theorem add_fresh_number_witness :
    exampleStore.db.table.wf ∧
    exampleStore.Add exampleParcel = (.ok 4, (exampleStore.Add exampleParcel).2) ∧
    (4 : Int) ≠ 0 ∧ (∀ r ∈ exampleStore.db.table.rows, r.Number ≠ 4) ∧
    (exampleStore.Add exampleParcel).2.db.table.rows.length =
      exampleStore.db.table.rows.length + 1 :=
  have h := add_fresh_number exampleStore _ exampleParcel 4 (by decide) rfl
  ⟨by decide, rfl, h.1, h.2.1, h.2.2.2.1⟩

/-- C2: in every table state, for a number `n` that no row of the table has,
each of `Get n`, `SetStatus n st`, `SetAddress n a` and `Delete n` returns
`sql.ErrNoRows`, for every `st` and `a`, and leaves the table unchanged. -/
theorem absent_number_not_found (s : ParcelStore) (n : Int) (st a : String)
    (habs : ∀ r ∈ s.db.table.rows, r.Number ≠ n) :
    ((s.Get n).1 = .error SqlError.ErrNoRows ∧ (s.Get n).2.db.table = s.db.table) ∧
    ((s.SetStatus n st).1 = .error SqlError.ErrNoRows ∧
      (s.SetStatus n st).2.db.table = s.db.table) ∧
    ((s.SetAddress n a).1 = .error SqlError.ErrNoRows ∧
      (s.SetAddress n a).2.db.table = s.db.table) ∧
    ((s.Delete n).1 = .error SqlError.ErrNoRows ∧ (s.Delete n).2.db.table = s.db.table) := by
  have hany : s.db.table.rows.any (fun p => p.Number == n) = false := by
    rw [List.any_eq_false]
    intro x hx
    simpa using habs x hx
  have hmap : ∀ (g : Parcel → Parcel) (c : Parcel → Bool),
      s.db.table.rows.map (fun r => if (r.Number == n && c r) = true then g r else r) =
        s.db.table.rows := by
    intro g c
    conv_rhs => rw [← List.map_id s.db.table.rows]
    apply List.map_congr_left
    intro x hx
    simp [habs x hx]
  have hmap1 : ∀ (g : Parcel → Parcel),
      s.db.table.rows.map (fun r => if (r.Number == n) = true then g r else r) =
        s.db.table.rows := by
    intro g
    conv_rhs => rw [← List.map_id s.db.table.rows]
    apply List.map_congr_left
    intro x hx
    simp [habs x hx]
  have hfil : ∀ (c : Parcel → Bool),
      s.db.table.rows.filter (fun r => !(r.Number == n && c r)) = s.db.table.rows := by
    intro c
    rw [List.filter_eq_self]
    intro x hx
    simp [habs x hx]
  refine ⟨⟨Get_of_forall_ne s n habs, Get_table s n⟩, ?_, ?_, ?_⟩
  · rw [SetStatus_eq]
    simp only [hany, hmap1]
    exact ⟨rfl, trivial⟩
  · rw [SetAddress_eq]
    simp only [hany, hmap]
    exact ⟨rfl, trivial⟩
  · rw [Delete_eq]
    simp only [hany, hfil]
    exact ⟨rfl, trivial⟩

theorem absent_number_not_found_witness :
    (∀ r ∈ exampleStore.db.table.rows, r.Number ≠ 9) ∧
    (exampleStore.Get 9).1 = .error SqlError.ErrNoRows ∧
    (exampleStore.SetStatus 9 "sent").1 = .error SqlError.ErrNoRows ∧
    (exampleStore.SetAddress 9 "x").1 = .error SqlError.ErrNoRows ∧
    (exampleStore.Delete 9).1 = .error SqlError.ErrNoRows :=
  have h := absent_number_not_found exampleStore 9 "sent" "x" (by decide)
  ⟨by decide, h.1.1, h.2.1.1, h.2.2.1.1, h.2.2.2.1⟩

/-- C3: in every table state, for a number `n` whose row exists with a status
other than `registered`, `SetAddress n a` (for every `a`) and `Delete n` both
return no error and leave the whole table, row `n` included, as it was. -/
theorem gated_calls_are_noops (s : ParcelStore) (n : Int) (a : String) (r : Parcel)
    (hwf : s.db.table.wf) (hr : r ∈ s.db.table.rows) (hn : r.Number = n)
    (hs : r.Status ≠ ParcelStatusRegistered) :
    ((s.SetAddress n a).1 = .ok () ∧ (s.SetAddress n a).2.db.table = s.db.table) ∧
    ((s.Delete n).1 = .ok () ∧ (s.Delete n).2.db.table = s.db.table) := by
  subst hn
  have hany := any_number_of_mem _ r hr
  have hgate := gate_false_of_row _ hwf.1 r hr hs
  constructor
  · rw [SetAddress_eq]
    simp only [hany, map_update_of_forall_false _ _ _ hgate]
    exact ⟨rfl, trivial⟩
  · rw [Delete_eq]
    have hfil : s.db.table.rows.filter (fun x =>
        !(x.Number == r.Number && x.Status == ParcelStatusRegistered)) = s.db.table.rows := by
      rw [List.filter_eq_self]
      intro x hx
      rw [hgate x hx]
      rfl
    simp only [hany, hfil]
    exact ⟨rfl, trivial⟩

theorem gated_calls_are_noops_witness :
    exampleStore.db.table.wf ∧
    (⟨3, 7, "sent", "b", "t2"⟩ : Parcel) ∈ exampleStore.db.table.rows ∧
    (exampleStore.SetAddress 3 "elsewhere").1 = .ok () ∧
    (exampleStore.SetAddress 3 "elsewhere").2.db.table = exampleStore.db.table ∧
    (exampleStore.Delete 3).1 = .ok () ∧
    (exampleStore.Delete 3).2.db.table = exampleStore.db.table :=
  have h := gated_calls_are_noops exampleStore 3 "elsewhere" ⟨3, 7, "sent", "b", "t2"⟩
    (by decide) (by decide) rfl (by decide)
  ⟨by decide, by decide, h.1.1, h.1.2, h.2.1, h.2.2⟩

/-- C4: in every table state, for a number `n` whose row `r` has status
`registered` and every address `a`, `SetAddress n a` returns no error;
afterwards `Get n` returns `r` with `Address` replaced by `a` and `Number`,
`Client`, `Status` and `CreatedAt` as before; the table has the same numbers
as before, and a row of another number is in the table afterwards exactly
when it was there before. -/
theorem setAddress_registered (s : ParcelStore) (n : Int) (a : String) (r : Parcel)
    (hwf : s.db.table.wf) (hr : r ∈ s.db.table.rows) (hn : r.Number = n)
    (hs : r.Status = ParcelStatusRegistered) :
    (s.SetAddress n a).1 = .ok () ∧
    ((s.SetAddress n a).2.Get n).1 =
      .ok ⟨r.Number, r.Client, r.Status, a, r.CreatedAt⟩ ∧
    (s.SetAddress n a).2.db.table.rows.map Parcel.Number =
      s.db.table.rows.map Parcel.Number ∧
    (∀ q : Parcel, q.Number ≠ n →
      (q ∈ (s.SetAddress n a).2.db.table.rows ↔ q ∈ s.db.table.rows)) := by
  subst hn
  have hany := any_number_of_mem _ r hr
  have hnum := map_number_update s.db.table.rows (fun x => { x with Address := a })
    (fun x => x.Number == r.Number && x.Status == ParcelStatusRegistered) (fun _ => rfl)
  rw [SetAddress_eq]
  simp only [hany]
  refine ⟨rfl, ?_, hnum, ?_⟩
  · have hmem : (⟨r.Number, r.Client, r.Status, a, r.CreatedAt⟩ : Parcel) ∈
        s.db.table.rows.map (fun x =>
          if (x.Number == r.Number && x.Status == ParcelStatusRegistered) = true
          then { x with Address := a } else x) := by
      refine List.mem_map.2 ⟨r, hr, ?_⟩
      simp [hs]
    exact Get_of_mem ⟨⟨⟨_, s.db.table.seq⟩, _⟩⟩ ⟨r.Number, r.Client, r.Status, a, r.CreatedAt⟩
      (by rw [hnum]; exact hwf.1) hmem
  · intro q hq
    exact mem_update_other s.db.table.rows (fun x => { x with Address := a })
      (fun x => x.Number == r.Number && x.Status == ParcelStatusRegistered) r.Number
      (fun _ => rfl)
      (fun x hx => by simp only [Bool.and_eq_true, beq_iff_eq] at hx; exact hx.1) q hq

theorem setAddress_registered_witness :
    exampleStore.db.table.wf ∧
    (⟨1, 7, "registered", "a", "t1"⟩ : Parcel) ∈ exampleStore.db.table.rows ∧
    (exampleStore.SetAddress 1 "new test address").1 = .ok () ∧
    ((exampleStore.SetAddress 1 "new test address").2.Get 1).1 =
      .ok ⟨1, 7, "registered", "new test address", "t1"⟩ :=
  have h := setAddress_registered exampleStore 1 "new test address"
    ⟨1, 7, "registered", "a", "t1"⟩ (by decide) (by decide) rfl rfl
  ⟨by decide, by decide, h.1, h.2.1⟩

/-- C6: in every table state, for a number `n` whose row `r` exists (in any
status) and every status string `st`, `SetStatus n st` returns no error;
afterwards `Get n` returns `r` with `Status` replaced by `st` and `Number`,
`Client`, `Address` and `CreatedAt` as before; the table has the same numbers
as before, and a row of another number is in the table afterwards exactly
when it was there before. -/
theorem setStatus_existing (s : ParcelStore) (n : Int) (st : String) (r : Parcel)
    (hwf : s.db.table.wf) (hr : r ∈ s.db.table.rows) (hn : r.Number = n) :
    (s.SetStatus n st).1 = .ok () ∧
    ((s.SetStatus n st).2.Get n).1 =
      .ok ⟨r.Number, r.Client, st, r.Address, r.CreatedAt⟩ ∧
    (s.SetStatus n st).2.db.table.rows.map Parcel.Number =
      s.db.table.rows.map Parcel.Number ∧
    (∀ q : Parcel, q.Number ≠ n →
      (q ∈ (s.SetStatus n st).2.db.table.rows ↔ q ∈ s.db.table.rows)) := by
  subst hn
  have hany := any_number_of_mem _ r hr
  have hnum := map_number_update s.db.table.rows (fun x => { x with Status := st })
    (fun x => x.Number == r.Number) (fun _ => rfl)
  rw [SetStatus_eq]
  simp only [hany]
  refine ⟨rfl, ?_, hnum, ?_⟩
  · have hmem : (⟨r.Number, r.Client, st, r.Address, r.CreatedAt⟩ : Parcel) ∈
        s.db.table.rows.map (fun x =>
          if (x.Number == r.Number) = true then { x with Status := st } else x) := by
      refine List.mem_map.2 ⟨r, hr, ?_⟩
      simp
    exact Get_of_mem ⟨⟨⟨_, s.db.table.seq⟩, _⟩⟩ ⟨r.Number, r.Client, st, r.Address, r.CreatedAt⟩
      (by rw [hnum]; exact hwf.1) hmem
  · intro q hq
    exact mem_update_other s.db.table.rows (fun x => { x with Status := st })
      (fun x => x.Number == r.Number) r.Number (fun _ => rfl)
      (fun x hx => by simpa using hx) q hq

theorem setStatus_existing_witness :
    exampleStore.db.table.wf ∧
    (⟨3, 7, "sent", "b", "t2"⟩ : Parcel) ∈ exampleStore.db.table.rows ∧
    (exampleStore.SetStatus 3 "no such status").1 = .ok () ∧
    ((exampleStore.SetStatus 3 "no such status").2.Get 3).1 =
      .ok ⟨3, 7, "no such status", "b", "t2"⟩ :=
  have h := setStatus_existing exampleStore 3 "no such status"
    ⟨3, 7, "sent", "b", "t2"⟩ (by decide) (by decide) rfl
  ⟨by decide, by decide, h.1, h.2.1⟩

/-- C5: in every table state, for a number `n` whose row `r` has status
`registered`, `Delete n` returns no error and removes exactly that row:
afterwards `Get n` fails with `sql.ErrNoRows`, the rows of the table are
exactly the earlier rows of another number, and there is one row fewer. -/
theorem delete_registered (s : ParcelStore) (n : Int) (r : Parcel)
    (hwf : s.db.table.wf) (hr : r ∈ s.db.table.rows) (hn : r.Number = n)
    (hs : r.Status = ParcelStatusRegistered) :
    (s.Delete n).1 = .ok () ∧
    ((s.Delete n).2.Get n).1 = .error SqlError.ErrNoRows ∧
    (∀ q : Parcel, q ∈ (s.Delete n).2.db.table.rows ↔ (q ∈ s.db.table.rows ∧ q.Number ≠ n)) ∧
    (s.Delete n).2.db.table.rows.length + 1 = s.db.table.rows.length := by
  subst hn
  have hany := any_number_of_mem _ r hr
  have hmem : ∀ q : Parcel, q ∈ s.db.table.rows.filter (fun x =>
      !(x.Number == r.Number && x.Status == ParcelStatusRegistered)) ↔
      (q ∈ s.db.table.rows ∧ q.Number ≠ r.Number) := by
    intro q
    rw [List.mem_filter]
    constructor
    · rintro ⟨hq, hc⟩
      refine ⟨hq, fun hqn => ?_⟩
      have := row_unique _ hwf.1 r q hr hq hqn
      subst this
      simp [hs] at hc
    · rintro ⟨hq, hqn⟩
      exact ⟨hq, by simp [hqn]⟩
  rw [Delete_eq]
  simp only [hany]
  refine ⟨rfl, ?_, hmem, ?_⟩
  · apply Get_of_forall_ne
    intro q hq
    exact ((hmem q).1 hq).2
  · show (s.db.table.rows.filter (fun x =>
      !(x.Number == r.Number && x.Status == ParcelStatusRegistered))).length + 1 = _
    have hsplit := @List.length_eq_length_filter_add Parcel s.db.table.rows
      (fun x => !(x.Number == r.Number && x.Status == ParcelStatusRegistered))
    have hone : (s.db.table.rows.filter (fun x =>
        !(!(x.Number == r.Number && x.Status == ParcelStatusRegistered)))) = [r] := by
      have h1 : (fun x : Parcel =>
          !(!(x.Number == r.Number && x.Status == ParcelStatusRegistered))) =
          (fun x : Parcel => x.Status == ParcelStatusRegistered && x.Number == r.Number) := by
        funext x; simp [Bool.and_comm]
      rw [h1, ← List.filter_filter, filter_number_of_mem _ r hwf.1 hr]
      simp [hs]
    rw [hone] at hsplit
    simpa using hsplit.symm

theorem delete_registered_witness :
    exampleStore.db.table.wf ∧
    (⟨1, 7, "registered", "a", "t1"⟩ : Parcel) ∈ exampleStore.db.table.rows ∧
    (exampleStore.Delete 1).1 = .ok () ∧
    ((exampleStore.Delete 1).2.Get 1).1 = .error SqlError.ErrNoRows ∧
    (exampleStore.Delete 1).2.db.table.rows.length + 1 = exampleStore.db.table.rows.length :=
  have h := delete_registered exampleStore 1 ⟨1, 7, "registered", "a", "t1"⟩
    (by decide) (by decide) rfl rfl
  ⟨by decide, by decide, h.1, h.2.1, h.2.2.2⟩

/-- C7: in every table state, for every client `c`, `GetByClient c` returns no
error and a list that is a rearrangement of the rows of the table whose
`Client` is `c` (each of them once, as stored, and no other row), in strictly
ascending order of `Number`; when no row has client `c` the list has length
zero, still without an error.  The table is left as it was. -/
theorem getByClient_rows_in_order (s : ParcelStore) (c : Int) (hwf : s.db.table.wf) :
    ∃ l : List Parcel, (s.GetByClient c).1 = .ok l ∧
      l.Perm (s.db.table.rows.filter (fun p => p.Client == c)) ∧
      (∀ q : Parcel, q ∈ l ↔ (q ∈ s.db.table.rows ∧ q.Client = c)) ∧
      l.Pairwise (fun a b => a.Number < b.Number) ∧
      ((∀ r ∈ s.db.table.rows, r.Client ≠ c) → l.length = 0) ∧
      (s.GetByClient c).2.db.table = s.db.table := by
  refine ⟨orderByNumber (s.db.table.rows.filter (fun p => p.Client == c)), ?_,
    orderByNumber_perm _, ?_, orderByNumber_strict _ (filter_nodup _ _ hwf.1), ?_, ?_⟩
  · rw [GetByClient_eq]
  · intro q
    rw [(orderByNumber_perm _).mem_iff, List.mem_filter]
    simp
  · intro hnone
    rw [(orderByNumber_perm _).length_eq, List.length_eq_zero, List.filter_eq_nil_iff]
    intro x hx
    simpa using hnone x hx
  · rw [GetByClient_eq]

theorem getByClient_rows_in_order_witness :
    exampleStore.db.table.wf ∧
    (exampleStore.GetByClient 7).1 =
      .ok [⟨1, 7, "registered", "a", "t1"⟩, ⟨3, 7, "sent", "b", "t2"⟩] ∧
    ∃ l : List Parcel, (exampleStore.GetByClient 7).1 = .ok l ∧
      l.Pairwise (fun a b => a.Number < b.Number) :=
  ⟨by decide, rfl,
    (getByClient_rows_in_order exampleStore 7 (by decide)).imp
      (fun _ h => ⟨h.1, h.2.2.2.1⟩)⟩

/-- C8: the status gate as a step invariant.  In every table state, for every
row `r` whose status is not `registered` and every single call of `Add`,
`Get`, `GetByClient`, `SetStatus`, `SetAddress` or `Delete` with any
arguments, after the call the table still has a row of the number of `r`,
`Get` returns it, and its `Address` is the one `r` had before the call. -/
theorem gated_row_survives_step (s : ParcelStore) (op : Op) (r : Parcel)
    (hwf : s.db.table.wf) (hr : r ∈ s.db.table.rows)
    (hs : r.Status ≠ ParcelStatusRegistered) :
    ∃ q : Parcel, q ∈ (s.step op).db.table.rows ∧
      ((s.step op).Get r.Number).1 = .ok q ∧
      q.Number = r.Number ∧ q.Address = r.Address := by
  obtain ⟨q, hq, hqn, hqa⟩ := step_keeps_gated s op r hr hs
  refine ⟨q, hq, ?_, hqn, hqa⟩
  rw [← hqn]
  exact Get_of_mem _ q (step_wf s op hwf).1 hq

theorem gated_row_survives_step_witness :
    exampleStore.db.table.wf ∧
    (⟨3, 7, "sent", "b", "t2"⟩ : Parcel) ∈ exampleStore.db.table.rows ∧
    ∃ q : Parcel, q ∈ (exampleStore.step (.Delete 3)).db.table.rows ∧
      ((exampleStore.step (.Delete 3)).Get 3).1 = .ok q ∧
      q.Number = 3 ∧ q.Address = "b" :=
  ⟨by decide, by decide,
    gated_row_survives_step exampleStore (.Delete 3) ⟨3, 7, "sent", "b", "t2"⟩
      (by decide) (by decide) (by decide)⟩

/-- C10: the statements one call sends.  A call only appends to the log of
the handle.  `Add`, `Get`, `GetByClient` and `SetStatus` send exactly one
statement.  `SetAddress` and `Delete` send their UPDATE or DELETE alone when
it affects a row, and send it followed by the existence check by number when,
and only when, it affects zero rows.  No call sends more than two. -/
theorem statements_per_call (s : ParcelStore) :
    (∀ op, (s.step op).db.sent = s.db.sent ++ s.sentBy op) ∧
    (∀ p : Parcel, s.sentBy (.Add p) =
      [.exec (.insertParcel p.Client p.Status p.Address p.CreatedAt)]) ∧
    (∀ n, s.sentBy (.Get n) = [.query (.selectByNumber n)]) ∧
    (∀ c, s.sentBy (.GetByClient c) = [.query (.selectByClient c)]) ∧
    (∀ n st, s.sentBy (.SetStatus n st) = [.exec (.updateStatus st n)]) ∧
    (∀ n a, s.sentBy (.SetAddress n a) =
      if s.db.table.affected (.updateAddress a n ParcelStatusRegistered) = 0
      then [.exec (.updateAddress a n ParcelStatusRegistered), .query (.selectOne n)]
      else [.exec (.updateAddress a n ParcelStatusRegistered)]) ∧
    (∀ n, s.sentBy (.Delete n) =
      if s.db.table.affected (.deleteParcel n ParcelStatusRegistered) = 0
      then [.exec (.deleteParcel n ParcelStatusRegistered), .query (.selectOne n)]
      else [.exec (.deleteParcel n ParcelStatusRegistered)]) ∧
    (∀ op, 1 ≤ (s.sentBy op).length ∧ (s.sentBy op).length ≤ 2) := by
  have hAdd : ∀ p : Parcel, s.sentBy (.Add p) =
      [.exec (.insertParcel p.Client p.Status p.Address p.CreatedAt)] :=
    fun p => sentBy_of_append s _ _ (Add_sent s p)
  have hGet : ∀ n, s.sentBy (.Get n) = [.query (.selectByNumber n)] :=
    fun n => sentBy_of_append s _ _ (Get_sent s n)
  have hByC : ∀ c, s.sentBy (.GetByClient c) = [.query (.selectByClient c)] :=
    fun c => sentBy_of_append s _ _ (by simp only [ParcelStore.step, GetByClient_eq])
  have hSt : ∀ n st, s.sentBy (.SetStatus n st) = [.exec (.updateStatus st n)] :=
    fun n st => sentBy_of_append s _ _ (by simp only [ParcelStore.step, SetStatus_eq])
  have hAd := fun n a => sentBy_of_append s (.SetAddress n a) _ (SetAddress_sent s n a)
  have hDel := fun n => sentBy_of_append s (.Delete n) _ (Delete_sent s n)
  refine ⟨?_, hAdd, hGet, hByC, hSt, hAd, hDel, ?_⟩
  · intro op
    cases op with
    | Add p => rw [hAdd]; exact Add_sent s p
    | Get n => rw [hGet]; exact Get_sent s n
    | GetByClient c => rw [hByC]; simp only [ParcelStore.step, GetByClient_eq]
    | SetStatus n st => rw [hSt]; simp only [ParcelStore.step, SetStatus_eq]
    | SetAddress n a => rw [hAd]; exact SetAddress_sent s n a
    | Delete n => rw [hDel]; exact Delete_sent s n
  · intro op
    cases op with
    | Add p => rw [hAdd]; simp
    | Get n => rw [hGet]; simp
    | GetByClient c => rw [hByC]; simp
    | SetStatus n st => rw [hSt]; simp
    | SetAddress n a => rw [hAd]; split <;> simp
    | Delete n => rw [hDel]; split <;> simp

end Tracker
